import Mathlib

/-!
Shallow embedding of the face-matching core of the facial-recognition app:
the similarity matcher inside `FaceProcessor.detect_face_realtime`
(src/utils/face_processor.py), the single-face extractor
`FaceProcessor.get_face_embedding`, and the duplicate guard
`Database.check_face_exists` (src/utils/database.py), together with the
threshold constants used by the registration page (src/pages/registration.py).

Floating-point values are modelled as real numbers.  A numpy operation that
raises (`np.dot` on 1-D arrays of different lengths, `pickle.loads` on a
corrupt blob) is modelled with `Except Unit`; an uncaught division by zero in
numpy only produces a warning value (nan), never an exception, and a nan
compared against a threshold is falsy, which the junk value `x / 0 = 0` of the
real field reproduces for the non-negative thresholds the app uses.
-/

namespace FacialRec

/-- Dot product of two float vectors (`np.dot` on equal-length 1-D arrays). -/
noncomputable def dotL (a b : List ℝ) : ℝ := (List.zipWith (· * ·) a b).sum

/-- Euclidean norm `np.linalg.norm`. -/
noncomputable def l2norm (a : List ℝ) : ℝ := Real.sqrt (dotL a a)

/-- Cosine similarity `np.dot(a, b) / (np.linalg.norm(a) * np.linalg.norm(b))`
as computed at face_processor.py lines 135-137 and database.py lines 415-417. -/
noncomputable def cosineSim (a b : List ℝ) : ℝ := dotL a b / (l2norm a * l2norm b)

/-- The similarity used by the OpenCV fallback matcher
(face_processor.py lines 196-197): `1.0 / (1.0 + np.linalg.norm(a - b))`.
It is an inverse-Euclidean-distance score, not a cosine. -/
noncomputable def opencvSimilarity (a b : List ℝ) : ℝ :=
  1 / (1 + l2norm (List.zipWith (· - ·) a b))

/-- `np.dot` on 1-D arrays: raises ValueError when the lengths differ. -/
noncomputable def npDot (a b : List ℝ) : Except Unit ℝ :=
  if a.length = b.length then .ok (dotL a b) else .error ()

/-- One element of the `stored_embeddings` gallery: the tuple
`(user_id, user_data, embedding)` produced by `Database.get_all_embeddings`.
The user-data payload is opaque to the matcher and modelled as a string. -/
structure GalleryEntry where
  userId : String
  userData : String
  emb : List ℝ

/-- Hard-coded recognition threshold of the InsightFace branch
(face_processor.py line 131). -/
noncomputable def realtimeInsightThreshold : ℝ := 0.5

/-- Hard-coded recognition threshold of the OpenCV fallback branch
(face_processor.py line 190). -/
noncomputable def realtimeOpencvThreshold : ℝ := 0.8

/-- Similarity threshold the registration page passes to
`check_face_exists` (registration.py lines 68-71 and 99-102). -/
noncomputable def registrationGuardThreshold : ℝ := 0.6

/-- Default value of the `similarity_threshold` parameter of
`check_face_exists` (database.py line 394). -/
noncomputable def checkExistsDefaultThreshold : ℝ := 0.5

/-- The gallery scan of the InsightFace branch of `detect_face_realtime`
(face_processor.py lines 129-141): running `best_match`/`best_score` state,
update when `similarity > threshold and similarity > best_score`.
There is no dimension guard, so `np.dot` raises on a gallery entry whose
embedding length differs from the probe's; the error escapes the loop. -/
noncomputable def insightScan (emb : List ℝ) (threshold : ℝ) :
    List GalleryEntry → Option (String × String × ℝ) → ℝ →
    Except Unit (Option (String × String × ℝ))
  | [], best_match, _ => .ok best_match
  | e :: rest, best_match, best_score =>
    match npDot emb e.emb with
    | .error u => .error u
    | .ok d =>
      let similarity := d / (l2norm emb * l2norm e.emb)
      if similarity > threshold ∧ similarity > best_score then
        insightScan emb threshold rest (some (e.userId, e.userData, similarity)) similarity
      else
        insightScan emb threshold rest best_match best_score

/-- Pure restatement of the state evolution of `insightScan` on galleries whose
entries all have the probe's length (so no `np.dot` error can occur); the
similarity is then exactly `cosineSim`.  Used to reason about the loop. -/
noncomputable def scanState (emb : List ℝ) (threshold : ℝ) :
    List GalleryEntry → Option (String × String × ℝ) → ℝ →
    Option (String × String × ℝ) × ℝ
  | [], best_match, best_score => (best_match, best_score)
  | e :: rest, best_match, best_score =>
    let similarity := cosineSim emb e.emb
    if similarity > threshold ∧ similarity > best_score then
      scanState emb threshold rest (some (e.userId, e.userData, similarity)) similarity
    else
      scanState emb threshold rest best_match best_score

/-- The gallery scan of the OpenCV fallback branch of `detect_face_realtime`
(face_processor.py lines 188-201): entries whose embedding length differs
from the probe's are skipped by the `len(embedding) == len(stored_embedding)`
guard, so this scan is total. -/
noncomputable def opencvScan (emb : List ℝ) (threshold : ℝ) :
    List GalleryEntry → Option (String × String × ℝ) → ℝ →
    Option (String × String × ℝ)
  | [], best_match, _ => best_match
  | e :: rest, best_match, best_score =>
    if emb.length = e.emb.length then
      let similarity := opencvSimilarity emb e.emb
      if similarity > threshold ∧ similarity > best_score then
        opencvScan emb threshold rest (some (e.userId, e.userData, similarity)) similarity
      else
        opencvScan emb threshold rest best_match best_score
    else
      opencvScan emb threshold rest best_match best_score

/-- The `face_embedding` field of a stored user document: absent
(`"face_embedding" in user` is false), a blob `pickle.loads` cannot
deserialize, or a valid vector. -/
inductive StoredEmbedding
  | missing
  | corrupt
  | valid (v : List ℝ)

/-- A user document as read by `check_face_exists`. -/
structure DbUser where
  uid : String
  name : String
  stored : StoredEmbedding

/-- Body of the `try` block of `Database.check_face_exists`
(database.py lines 405-428): scan the users in order, skip documents without
a `face_embedding` field, deserialize (which may raise), compute the cosine
similarity (where `np.dot` may raise on a dimension mismatch) and return
`(True, info)` on the first user with `similarity > similarity_threshold`. -/
noncomputable def checkScan (face_embedding : List ℝ) (similarity_threshold : ℝ) :
    List DbUser → Except Unit (Bool × Option (String × String × ℝ))
  | [] => .ok (false, none)
  | u :: rest =>
    match u.stored with
    | .missing => checkScan face_embedding similarity_threshold rest
    | .corrupt => .error ()
    | .valid existing =>
      match npDot existing face_embedding with
      | .error e => .error e
      | .ok d =>
        let similarity := d / (l2norm existing * l2norm face_embedding)
        if similarity > similarity_threshold then
          .ok (true, some (u.uid, u.name, similarity))
        else
          checkScan face_embedding similarity_threshold rest

/-- `Database.check_face_exists` (database.py lines 394-432): the scan above
wrapped in `try/except`, any exception yielding `(False, None)`. -/
noncomputable def check_face_exists (face_embedding : List ℝ)
    (similarity_threshold : ℝ) (users : List DbUser) :
    Bool × Option (String × String × ℝ) :=
  match checkScan face_embedding similarity_threshold users with
  | .ok r => r
  | .error _ => (false, none)

/-- A pixel in BGR channel order. -/
abbrev Pixel := ℕ × ℕ × ℕ

/-- An image as a total function from (row, column) to pixel; buffer extents
(`image.shape`) are not modelled, so slice upper bounds and the clamping
`min(b, shape)` are not observable. -/
def Image : Type := ℤ × ℤ → Pixel

instance : Inhabited Image := ⟨fun _ => (0, 0, 0)⟩

/-- Numpy slice `image[y1:y2, x1:x2]`: only the offset of the view is
observable in this model (images are total functions, extents unmodelled). -/
def cropImg (img : Image) (y1 _y2 x1 _x2 : ℤ) : Image :=
  fun p => img (p.1 + y1, p.2 + x1)

/-- A detection of the InsightFace backend: float bounding box
`bbox = [x1, y1, x2, y2]` plus embedding. -/
structure InsightFace where
  x1 : ℝ
  y1 : ℝ
  x2 : ℝ
  y2 : ℝ
  embedding : List ℝ

instance : Inhabited InsightFace := ⟨⟨0, 0, 0, 0, []⟩⟩

/-- Sort key `(x.bbox[2] - x.bbox[0]) * (x.bbox[3] - x.bbox[1])`
of face_processor.py line 60. -/
noncomputable def insightFaceArea (f : InsightFace) : ℝ :=
  (f.x2 - f.x1) * (f.y2 - f.y1)

/-- A detection of the OpenCV cascade: integer `(x, y, w, h)`. -/
structure CVFace where
  x : ℤ
  y : ℤ
  w : ℤ
  h : ℤ

instance : Inhabited CVFace := ⟨⟨0, 0, 0, 0⟩⟩

/-- Sort key `x[2] * x[3]` of face_processor.py line 81. -/
def cvFaceArea (f : CVFace) : ℤ := f.w * f.h

/-- Stable insertion of `x` in front of the first element with a strictly
smaller key: among equal keys, the earlier element of the original list
stays first. -/
def pyInsertDesc {α β : Type} [LinearOrder β] (key : α → β) (x : α) :
    List α → List α
  | [] => [x]
  | y :: ys => if key y ≤ key x then x :: y :: ys else y :: pyInsertDesc key x ys

/-- Python's `sorted(l, key=key, reverse=True)`: a stable descending sort.
Python's sort is stable and `reverse=True` preserves the original order of
elements with equal keys; any stable descending sort is extensionally equal
to it, and this one is the insertion sort built from `pyInsertDesc`. -/
def pySortedDesc {α β : Type} [LinearOrder β] (key : α → β) (l : List α) :
    List α :=
  l.foldr (pyInsertDesc key) []

/-- `FaceProcessor.get_face_embedding` (face_processor.py lines 34-92).
The external detectors and the resize-and-flatten of `cv2` are parameters:
`faceAppGet` models `self.face_app.get`, `cascadeDetect` models the cascade
detection on the grayscale conversion, and `resizeFlatten` models
`cv2.resize(face_image, (50, 50)).flatten()` yielding byte values, which the
code then divides by 255.0.  The float bbox is converted with `astype(int)`,
modelled by the floor (they differ only at negative non-integer coordinates,
which never affect which face is selected). -/
noncomputable def get_face_embedding (useInsightface : Bool)
    (faceAppGet : Image → List InsightFace)
    (cascadeDetect : Image → List CVFace)
    (resizeFlatten : Image → List ℕ)
    (image : Image) :
    Option (List ℝ) × Option Image × Bool × String :=
  if useInsightface then
    let faces := faceAppGet image
    if faces.length = 0 then
      (none, none, false, "No face detected in the image")
    else
      let sorted := if faces.length > 1 then pySortedDesc insightFaceArea faces else faces
      let face := sorted.headI
      let face_image := cropImg image (max 0 ⌊face.y1⌋) ⌊face.y2⌋ (max 0 ⌊face.x1⌋) ⌊face.x2⌋
      (some face.embedding, some face_image, true, "Face detected successfully")
  else
    let faces := cascadeDetect image
    if faces.length = 0 then
      (none, none, false, "No face detected in the image")
    else
      let sorted := if faces.length > 1 then pySortedDesc cvFaceArea faces else faces
      let f := sorted.headI
      let face_image := cropImg image f.y (f.y + f.h) f.x (f.x + f.w)
      let embedding := (resizeFlatten face_image).map (fun v => (v : ℝ) / 255)
      (some embedding, some face_image, true, "Face detected (using OpenCV fallback)")

/-- Colour for a recognized face, BGR `(0, 255, 0)` (green). -/
def colorGreen : Pixel := (0, 255, 0)

/-- Colour for an unrecognized face, BGR `(0, 0, 255)` (red). -/
def colorRed : Pixel := (0, 0, 255)

/-- `cv2.rectangle(img, (x1, y1), (x2, y2), c, 2)`: paint the pixels near the
boundary of the axis-aligned rectangle. -/
def drawRectangle (img : Image) (x1 y1 x2 y2 : ℤ) (c : Pixel) : Image :=
  fun p =>
    if (x1 - 1 ≤ p.2 ∧ p.2 ≤ x2 + 1 ∧ y1 - 1 ≤ p.1 ∧ p.1 ≤ y2 + 1) ∧
        (p.2 ≤ x1 ∨ x2 ≤ p.2 ∨ p.1 ≤ y1 ∨ y2 ≤ p.1) then c else img p

/-- A heap of image buffers; a numpy array variable is a reference into it.
`image.copy()` appends a fresh buffer, `cv2.rectangle` mutates one in place. -/
abbrev Store := List Image

/-- A reference to an image buffer in a `Store`. -/
abbrev ImgRef := ℕ

/-- In-place `cv2.rectangle` on the buffer named by `r`. -/
def storeDraw (st : Store) (r : ImgRef) (x1 y1 x2 y2 : ℤ) (c : Pixel) : Store :=
  st.set r (drawRectangle (st.getD r default) x1 y1 x2 y2 c)

/-- One `matches` list element of `detect_face_realtime` (the `face_data`
dict); the base64 transport of the face crop is not modelled, the crop
itself is stored. -/
structure FaceData where
  bbox : List ℤ
  matchName : Option String
  userId : Option String
  confidence : ℝ
  recognized : Bool
  faceImage : Image

/-- The per-face loop of the InsightFace branch of `detect_face_realtime`
(face_processor.py lines 117-168): match against the gallery (the block runs
only when `stored_embeddings` is truthy), pick green or red, draw on the
display buffer, crop the face from the original image and append the
`face_data` record.  An exception from the scan escapes the whole call. -/
noncomputable def insightFaceLoop (gallery : List GalleryEntry) (image : Image)
    (dispRef : ImgRef) :
    List InsightFace → Store → List FaceData → Store × Except Unit (List FaceData)
  | [], st, ms => (st, .ok ms)
  | face :: rest, st, ms =>
    let b0 := ⌊face.x1⌋
    let b1 := ⌊face.y1⌋
    let b2 := ⌊face.x2⌋
    let b3 := ⌊face.y2⌋
    match (if gallery.isEmpty then Except.ok none
           else insightScan face.embedding realtimeInsightThreshold gallery none (-1)) with
    | .error u => (st, .error u)
    | .ok best =>
      let color := if best.isSome then colorGreen else colorRed
      let confidence : ℝ := match best with
        | some m => m.2.2
        | none => 0
      let st1 := storeDraw st dispRef (max 0 b0) (max 0 b1) b2 b3 color
      let face_crop := cropImg image (max 0 b1) b3 (max 0 b0) b2
      let fd : FaceData :=
        ⟨[b0, b1, b2, b3], (best.map fun m => m.2.1), (best.map fun m => m.1),
          confidence, best.isSome, face_crop⟩
      insightFaceLoop gallery image dispRef rest st1 (ms ++ [fd])

/-- The per-face loop of the OpenCV fallback branch of `detect_face_realtime`
(face_processor.py lines 174-222): crop, build the simplified embedding,
match with the dimension guard (total), draw, append `face_data`. -/
noncomputable def opencvFaceLoop (gallery : List GalleryEntry) (image : Image)
    (dispRef : ImgRef) (resizeFlatten : Image → List ℕ) :
    List CVFace → Store → List FaceData → Store × List FaceData
  | [], st, ms => (st, ms)
  | f :: rest, st, ms =>
    let face_crop := cropImg image f.y (f.y + f.h) f.x (f.x + f.w)
    let embedding := (resizeFlatten face_crop).map (fun v => (v : ℝ) / 255)
    let best := if gallery.isEmpty then none
                else opencvScan embedding realtimeOpencvThreshold gallery none (-1)
    let color := if best.isSome then colorGreen else colorRed
    let confidence : ℝ := match best with
      | some m => m.2.2
      | none => 0
    let st1 := storeDraw st dispRef f.x f.y (f.x + f.w) (f.y + f.h) color
    let fd : FaceData :=
      ⟨[f.x, f.y, f.x + f.w, f.y + f.h], (best.map fun m => m.2.1),
        (best.map fun m => m.1), confidence, best.isSome, face_crop⟩
    opencvFaceLoop gallery image dispRef resizeFlatten rest st1 (ms ++ [fd])

/-- `FaceProcessor.detect_face_realtime` (face_processor.py lines 94-224) with
the mutable numpy buffers made explicit: the caller's frame is the buffer at
`imgRef` in the store; `display_image = image.copy()` allocates a fresh buffer
at index `st.length`, and all drawing targets that buffer. -/
noncomputable def detect_face_realtime (useInsightface : Bool)
    (faceAppGet : Image → List InsightFace)
    (cascadeDetect : Image → List CVFace)
    (resizeFlatten : Image → List ℕ)
    (gallery : List GalleryEntry)
    (st : Store) (imgRef : ImgRef) :
    Store × ImgRef × Except Unit (List FaceData) :=
  let image := st.getD imgRef default
  let dispRef := st.length
  let st1 := st ++ [image]
  if useInsightface then
    let faces := faceAppGet image
    let r := insightFaceLoop gallery image dispRef faces st1 []
    (r.1, dispRef, r.2)
  else
    let faces := cascadeDetect image
    let r := opencvFaceLoop gallery image dispRef resizeFlatten faces st1 []
    (r.1, dispRef, .ok r.2)

/-! ## Lemmas about the InsightFace gallery scan -/

/-- On a gallery whose entries all have the probe's length, `np.dot` never
raises and the scan computes exactly the pure state evolution, the similarity
being the cosine similarity. -/
theorem insightScan_eq_scanState (emb : List ℝ) (th : ℝ)
    (g : List GalleryEntry) (b : Option (String × String × ℝ)) (bs : ℝ)
    (hlen : ∀ e ∈ g, e.emb.length = emb.length) :
    insightScan emb th g b bs = .ok (scanState emb th g b bs).1 := by
  induction g generalizing b bs with
  | nil => simp [insightScan, scanState]
  | cons e rest ih =>
    have he : emb.length = e.emb.length := (hlen e (by simp)).symm
    have hrest : ∀ x ∈ rest, x.emb.length = emb.length := fun x hx =>
      hlen x (List.mem_cons_of_mem _ hx)
    simp only [insightScan, npDot, if_pos he, scanState, cosineSim]
    split
    · exact ih _ _ hrest
    · exact ih _ _ hrest

/-- If no gallery entry clears both the threshold and the incoming best score,
the scan state is unchanged. -/
theorem scanState_no_update (emb : List ℝ) (th : ℝ) (g : List GalleryEntry)
    (b : Option (String × String × ℝ)) (bs : ℝ)
    (h : ∀ e ∈ g, ¬(cosineSim emb e.emb > th ∧ cosineSim emb e.emb > bs)) :
    scanState emb th g b bs = (b, bs) := by
  induction g with
  | nil => simp [scanState]
  | cons e rest ih =>
    have he := h e (by simp)
    simp only [scanState, if_neg he]
    exact ih fun x hx => h x (List.mem_cons_of_mem _ hx)

/-- The final best score is the initial one or the similarity of some entry. -/
theorem scanState_score_cases (emb : List ℝ) (th : ℝ) (g : List GalleryEntry)
    (b : Option (String × String × ℝ)) (bs : ℝ) :
    (scanState emb th g b bs).2 = bs ∨
      ∃ e ∈ g, (scanState emb th g b bs).2 = cosineSim emb e.emb := by
  induction g generalizing b bs with
  | nil => simp [scanState]
  | cons e rest ih =>
    simp only [scanState]
    split
    · rcases ih (some (e.userId, e.userData, cosineSim emb e.emb))
        (cosineSim emb e.emb) with h | ⟨x, hx, hx2⟩
      · exact Or.inr ⟨e, by simp, h⟩
      · exact Or.inr ⟨x, List.mem_cons_of_mem _ hx, hx2⟩
    · rcases ih b bs with h | ⟨x, hx, hx2⟩
      · exact Or.inl h
      · exact Or.inr ⟨x, List.mem_cons_of_mem _ hx, hx2⟩

/-- The final best match is the initial one, or it is some gallery entry
together with its cosine similarity, which then exceeds the threshold. -/
theorem scanState_match_cases (emb : List ℝ) (th : ℝ) (g : List GalleryEntry)
    (b : Option (String × String × ℝ)) (bs : ℝ) :
    (scanState emb th g b bs).1 = b ∨
      ∃ e ∈ g, (scanState emb th g b bs).1 =
          some (e.userId, e.userData, cosineSim emb e.emb) ∧
        cosineSim emb e.emb > th := by
  induction g generalizing b bs with
  | nil => simp [scanState]
  | cons e rest ih =>
    simp only [scanState]
    split
    · rename_i hcond
      rcases ih (some (e.userId, e.userData, cosineSim emb e.emb))
        (cosineSim emb e.emb) with h | ⟨x, hx, hx2, hx3⟩
      · exact Or.inr ⟨e, by simp, h, hcond.1⟩
      · exact Or.inr ⟨x, List.mem_cons_of_mem _ hx, hx2, hx3⟩
    · rcases ih b bs with h | ⟨x, hx, hx2, hx3⟩
      · exact Or.inl h
      · exact Or.inr ⟨x, List.mem_cons_of_mem _ hx, hx2, hx3⟩

/-- Once the running best match is set, it stays set. -/
theorem scanState_isSome_mono (emb : List ℝ) (th : ℝ) (g : List GalleryEntry)
    (b : Option (String × String × ℝ)) (bs : ℝ) (hb : b.isSome) :
    ((scanState emb th g b bs).1).isSome := by
  induction g generalizing b bs with
  | nil => simpa [scanState] using hb
  | cons e rest ih =>
    simp only [scanState]
    split
    · exact ih _ _ (by simp)
    · exact ih _ _ hb

/-- If some gallery entry clears both the threshold and the incoming best
score, the scan ends with a match. -/
theorem scanState_progress (emb : List ℝ) (th : ℝ) (g : List GalleryEntry)
    (b : Option (String × String × ℝ)) (bs : ℝ)
    (h : ∃ e ∈ g, cosineSim emb e.emb > th ∧ cosineSim emb e.emb > bs) :
    ((scanState emb th g b bs).1).isSome := by
  induction g generalizing b bs with
  | nil => simp at h
  | cons e rest ih =>
    simp only [scanState]
    split
    · exact scanState_isSome_mono _ _ _ _ _ (by simp)
    · rename_i hcond
      rcases h with ⟨x, hx, hx2⟩
      rcases List.mem_cons.mp hx with rfl | hx'
      · exact absurd hx2 hcond
      · exact ih _ _ ⟨x, hx', hx2⟩

/-- Scanning an appended gallery scans the pieces in order. -/
theorem scanState_append (emb : List ℝ) (th : ℝ) (xs ys : List GalleryEntry)
    (b : Option (String × String × ℝ)) (bs : ℝ) :
    scanState emb th (xs ++ ys) b bs =
      scanState emb th ys (scanState emb th xs b bs).1 (scanState emb th xs b bs).2 := by
  induction xs generalizing b bs with
  | nil => simp [scanState]
  | cons e rest ih =>
    simp only [List.cons_append, scanState]
    split
    · exact ih _ _
    · exact ih _ _

/-! ## Zero-norm similarity facts -/

/-- Unfolding of `dotL` on cons cells. -/
theorem dotL_cons (x y : ℝ) (a b : List ℝ) :
    dotL (x :: a) (y :: b) = x * y + dotL a b := by
  simp [dotL]

/-- A squared sum is non-negative. -/
theorem dotL_self_nonneg (a : List ℝ) : 0 ≤ dotL a a := by
  induction a with
  | nil => simp [dotL]
  | cons x rest ih =>
    rw [dotL_cons]
    have := mul_self_nonneg x
    linarith

/-- A vector whose self-dot-product vanishes is the zero vector. -/
theorem eq_zero_of_dotL_self_eq_zero (a : List ℝ) (h : dotL a a = 0) :
    ∀ x ∈ a, x = 0 := by
  induction a with
  | nil => simp
  | cons x rest ih =>
    rw [dotL_cons] at h
    have h1 : 0 ≤ x * x := mul_self_nonneg x
    have h2 : 0 ≤ dotL rest rest := dotL_self_nonneg rest
    have hx : x * x = 0 := by linarith
    have hr : dotL rest rest = 0 := by linarith
    intro y hy
    rcases List.mem_cons.mp hy with rfl | hy'
    · exact mul_self_eq_zero.mp hx
    · exact ih hr y hy'

/-- The dot product with a zero vector on the left vanishes. -/
theorem dotL_eq_zero_left (a b : List ℝ) (h : ∀ x ∈ a, x = 0) :
    dotL a b = 0 := by
  induction a generalizing b with
  | nil => simp [dotL]
  | cons x rest ih =>
    cases b with
    | nil => simp [dotL]
    | cons y bs =>
      rw [dotL_cons, h x (by simp), zero_mul, zero_add]
      exact ih bs fun z hz => h z (List.mem_cons_of_mem _ hz)

/-- The dot product with a zero vector on the right vanishes. -/
theorem dotL_eq_zero_right (a b : List ℝ) (h : ∀ x ∈ b, x = 0) :
    dotL a b = 0 := by
  induction a generalizing b with
  | nil => simp [dotL]
  | cons x rest ih =>
    cases b with
    | nil => simp [dotL]
    | cons y bs =>
      rw [dotL_cons, h y (by simp), mul_zero, zero_add]
      exact ih bs fun z hz => h z (List.mem_cons_of_mem _ hz)

/-- A zero norm means a zero self-dot-product. -/
theorem dotL_self_eq_zero_of_l2norm (a : List ℝ) (h : l2norm a = 0) :
    dotL a a = 0 :=
  (Real.sqrt_eq_zero (dotL_self_nonneg a)).mp h

/-- When either vector has zero norm the computed cosine similarity is the
junk value of the division, which compares below any non-negative threshold
exactly as numpy's nan does. -/
theorem cosineSim_eq_zero_of_norm_zero (a b : List ℝ)
    (h : l2norm a = 0 ∨ l2norm b = 0) : cosineSim a b = 0 := by
  rcases h with h | h
  · have hz : dotL a b = 0 :=
      dotL_eq_zero_left a b (eq_zero_of_dotL_self_eq_zero a (dotL_self_eq_zero_of_l2norm a h))
    simp [cosineSim, hz]
  · have hz : dotL a b = 0 :=
      dotL_eq_zero_right a b (eq_zero_of_dotL_self_eq_zero b (dotL_self_eq_zero_of_l2norm b h))
    simp [cosineSim, hz]

/-! ## Lemmas about the duplicate guard -/

/-- A user document without a `face_embedding` field is skipped. -/
theorem check_cons_missing (emb : List ℝ) (th : ℝ) (u : DbUser)
    (rest : List DbUser) (h : u.stored = .missing) :
    check_face_exists emb th (u :: rest) = check_face_exists emb th rest := by
  simp [check_face_exists, checkScan, h]

/-- A valid, dimension-compatible user document whose similarity does not
strictly exceed the threshold is passed over. -/
theorem check_cons_below (emb : List ℝ) (th : ℝ) (u : DbUser)
    (rest : List DbUser) (v : List ℝ) (h : u.stored = .valid v)
    (hlen : v.length = emb.length) (hsim : ¬(cosineSim v emb > th)) :
    check_face_exists emb th (u :: rest) = check_face_exists emb th rest := by
  rw [cosineSim] at hsim
  simp [check_face_exists, checkScan, h, npDot, hlen, hsim]

/-- A valid, dimension-compatible user document whose similarity strictly
exceeds the threshold makes the guard report a duplicate with that user's
name and similarity, immediately. -/
theorem check_cons_above (emb : List ℝ) (th : ℝ) (u : DbUser)
    (rest : List DbUser) (v : List ℝ) (h : u.stored = .valid v)
    (hlen : v.length = emb.length) (hsim : cosineSim v emb > th) :
    check_face_exists emb th (u :: rest) =
      (true, some (u.uid, u.name, cosineSim v emb)) := by
  rw [cosineSim] at hsim
  simp [check_face_exists, checkScan, h, npDot, hlen, hsim, cosineSim]

/-- A corrupt blob or a dimension mismatch raises inside the `try` block, and
the `except` handler turns the whole call into `(False, None)`. -/
theorem check_cons_error (emb : List ℝ) (th : ℝ) (u : DbUser)
    (rest : List DbUser)
    (h : u.stored = .corrupt ∨ ∃ v, u.stored = .valid v ∧ v.length ≠ emb.length) :
    check_face_exists emb th (u :: rest) = (false, none) := by
  rcases h with h | ⟨v, h, hlen⟩
  · simp [check_face_exists, checkScan, h]
  · simp [check_face_exists, checkScan, h, npDot, hlen]

/-- The InsightFace scan started from `best_match = None`, `best_score = -1`
ends with a match exactly when some gallery entry's cosine similarity
strictly exceeds the threshold (for thresholds at least the `-1`
initializer, which all configured thresholds are). -/
theorem insight_some_iff (emb : List ℝ) (th : ℝ) (gallery : List GalleryEntry)
    (hth : (-1 : ℝ) ≤ th)
    (hlen : ∀ e ∈ gallery, e.emb.length = emb.length) :
    (∃ m, insightScan emb th gallery none (-1) = .ok (some m)) ↔
      ∃ e ∈ gallery, cosineSim emb e.emb > th := by
  rw [insightScan_eq_scanState emb th gallery none (-1) hlen]
  constructor
  · rintro ⟨m, hm⟩
    have hm' : (scanState emb th gallery none (-1)).1 = some m := by
      exact Except.ok.inj hm
    rcases scanState_match_cases emb th gallery none (-1) with h | ⟨e, he, _, hgt⟩
    · rw [h] at hm'; cases hm'
    · exact ⟨e, he, hgt⟩
  · rintro ⟨e, he, hgt⟩
    have hbs : cosineSim emb e.emb > (-1 : ℝ) := lt_of_le_of_lt hth hgt
    have hs := scanState_progress emb th gallery none (-1) ⟨e, he, hgt, hbs⟩
    rcases Option.isSome_iff_exists.mp hs with ⟨m, hm⟩
    exact ⟨m, by rw [hm]⟩

/-- A reported InsightFace match is some gallery entry together with its
cosine similarity, which strictly exceeds the threshold. -/
theorem insight_match_report (emb : List ℝ) (th : ℝ)
    (gallery : List GalleryEntry) (m : String × String × ℝ)
    (hlen : ∀ e ∈ gallery, e.emb.length = emb.length)
    (hm : insightScan emb th gallery none (-1) = .ok (some m)) :
    ∃ e ∈ gallery, m = (e.userId, e.userData, cosineSim emb e.emb) ∧
      cosineSim emb e.emb > th := by
  rw [insightScan_eq_scanState emb th gallery none (-1) hlen] at hm
  have hm' : (scanState emb th gallery none (-1)).1 = some m :=
    Except.ok.inj hm
  rcases scanState_match_cases emb th gallery none (-1) with h | ⟨e, he, heq, hgt⟩
  · rw [h] at hm'; cases hm'
  · rw [heq] at hm'
    exact ⟨e, he, (Option.some.inj hm').symm, hgt⟩

/-- On a benign user table (no corrupt blobs, no dimension mismatches) the
duplicate guard reports a duplicate exactly when some stored embedding's
cosine similarity strictly exceeds the threshold. -/
theorem check_true_iff (emb : List ℝ) (th : ℝ) (users : List DbUser)
    (husers : ∀ u ∈ users, u.stored = StoredEmbedding.missing ∨
      ∃ v, u.stored = StoredEmbedding.valid v ∧ v.length = emb.length) :
    (check_face_exists emb th users).1 = true ↔
      ∃ u ∈ users, ∃ v, u.stored = StoredEmbedding.valid v ∧
        cosineSim v emb > th := by
  induction users with
  | nil => simp [check_face_exists, checkScan]
  | cons u rest ih =>
    have hrest : ∀ x ∈ rest, x.stored = StoredEmbedding.missing ∨
        ∃ v, x.stored = StoredEmbedding.valid v ∧ v.length = emb.length :=
      fun x hx => husers x (List.mem_cons_of_mem _ hx)
    rcases husers u (by simp) with hm | ⟨v, hv, hvlen⟩
    · rw [check_cons_missing emb th u rest hm, ih hrest]
      constructor
      · rintro ⟨x, hx, hex⟩
        exact ⟨x, List.mem_cons_of_mem _ hx, hex⟩
      · rintro ⟨x, hx, v', hv', hgt⟩
        rcases List.mem_cons.mp hx with rfl | hx'
        · rw [hm] at hv'; cases hv'
        · exact ⟨x, hx', v', hv', hgt⟩
    · by_cases hgt : cosineSim v emb > th
      · rw [check_cons_above emb th u rest v hv hvlen hgt]
        simp only [true_iff]
        exact ⟨u, by simp, v, hv, hgt⟩
      · rw [check_cons_below emb th u rest v hv hvlen hgt, ih hrest]
        constructor
        · rintro ⟨x, hx, hex⟩
          exact ⟨x, List.mem_cons_of_mem _ hx, hex⟩
        · rintro ⟨x, hx, v', hv', hgt'⟩
          rcases List.mem_cons.mp hx with rfl | hx'
          · rw [hv] at hv'
            cases hv'
            exact absurd hgt' hgt
          · exact ⟨x, hx', v', hv', hgt'⟩

/-- A duplicate reported by the guard carries the matched user's id, name and
the cosine similarity of that user's stored embedding against the probe,
which strictly exceeds the threshold. -/
theorem check_duplicate_report (emb : List ℝ) (th : ℝ) (users : List DbUser)
    (i : String × String × ℝ)
    (h : check_face_exists emb th users = (true, some i)) :
    ∃ u ∈ users, ∃ v, u.stored = StoredEmbedding.valid v ∧
      i = (u.uid, u.name, cosineSim v emb) ∧ cosineSim v emb > th := by
  induction users with
  | nil => simp [check_face_exists, checkScan] at h
  | cons u rest ih =>
    cases hst : u.stored with
    | missing =>
      rw [check_cons_missing emb th u rest hst] at h
      rcases ih h with ⟨x, hx, hex⟩
      exact ⟨x, List.mem_cons_of_mem _ hx, hex⟩
    | corrupt =>
      rw [check_cons_error emb th u rest (Or.inl hst)] at h
      cases h
    | valid v =>
      by_cases hlen : v.length = emb.length
      · by_cases hgt : cosineSim v emb > th
        · rw [check_cons_above emb th u rest v hst hlen hgt] at h
          have h2 := (Prod.mk.injEq _ _ _ _).mp h
          have h3 : i = (u.uid, u.name, cosineSim v emb) :=
            (Option.some.inj h2.2).symm
          exact ⟨u, by simp, v, hst, h3, hgt⟩
        · rw [check_cons_below emb th u rest v hst hlen hgt] at h
          rcases ih h with ⟨x, hx, hex⟩
          exact ⟨x, List.mem_cons_of_mem _ hx, hex⟩
      · rw [check_cons_error emb th u rest (Or.inr ⟨v, hst, hlen⟩)] at h
        cases h

/-- A best match selected by the fallback scan is some dimension-compatible
gallery entry together with its inverse-distance similarity, which strictly
exceeds the threshold. -/
theorem opencvScan_match_cases (emb : List ℝ) (th : ℝ)
    (g : List GalleryEntry) (b : Option (String × String × ℝ)) (bs : ℝ) :
    opencvScan emb th g b bs = b ∨
      ∃ e ∈ g, emb.length = e.emb.length ∧
        opencvScan emb th g b bs =
          some (e.userId, e.userData, opencvSimilarity emb e.emb) ∧
        opencvSimilarity emb e.emb > th := by
  induction g generalizing b bs with
  | nil => simp [opencvScan]
  | cons e rest ih =>
    simp only [opencvScan]
    split
    · rename_i hlen
      split
      · rename_i hcond
        rcases ih (some (e.userId, e.userData, opencvSimilarity emb e.emb))
          (opencvSimilarity emb e.emb) with h | ⟨x, hx, hx1, hx2, hx3⟩
        · exact Or.inr ⟨e, by simp, hlen, h, hcond.1⟩
        · exact Or.inr ⟨x, List.mem_cons_of_mem _ hx, hx1, hx2, hx3⟩
      · rcases ih b bs with h | ⟨x, hx, hx1, hx2, hx3⟩
        · exact Or.inl h
        · exact Or.inr ⟨x, List.mem_cons_of_mem _ hx, hx1, hx2, hx3⟩
    · rcases ih b bs with h | ⟨x, hx, hx1, hx2, hx3⟩
      · exact Or.inl h
      · exact Or.inr ⟨x, List.mem_cons_of_mem _ hx, hx1, hx2, hx3⟩

/-- Concrete evaluation used by witnesses: a unit vector against itself. -/
theorem cosineSim_unit_self : cosineSim [1, 0] [1, 0] = 1 := by
  norm_num [cosineSim, dotL, l2norm, Real.sqrt_one]

/-! ## Claim theorems -/

/-- C1: for every probe embedding, gallery and threshold (at least the `-1`
`best_score` initializer, which every configured threshold is), the
InsightFace matcher recognizes an identity iff some gallery entry's cosine
similarity is strictly greater than the threshold, and the duplicate guard
reports a duplicate iff some stored embedding's cosine similarity is strictly
greater than the threshold; a score exactly equal to the threshold is a
non-match in both.  The dimension-compatibility hypotheses make the scans
complete without an exception. -/
theorem recognized_iff_similarity_strictly_above (emb : List ℝ) (th : ℝ)
    (gallery : List GalleryEntry) (users : List DbUser)
    (hth : (-1 : ℝ) ≤ th)
    (hlen : ∀ e ∈ gallery, e.emb.length = emb.length)
    (husers : ∀ u ∈ users, u.stored = StoredEmbedding.missing ∨
      ∃ v, u.stored = StoredEmbedding.valid v ∧ v.length = emb.length) :
    ((∃ m, insightScan emb th gallery none (-1) = .ok (some m)) ↔
      ∃ e ∈ gallery, cosineSim emb e.emb > th) ∧
    ((check_face_exists emb th users).1 = true ↔
      ∃ u ∈ users, ∃ v, u.stored = StoredEmbedding.valid v ∧
        cosineSim v emb > th) :=
  ⟨insight_some_iff emb th gallery hth hlen, check_true_iff emb th users husers⟩

/-- C1 witness: the theorem applied at a concrete probe, gallery, user table
and threshold. -/
theorem recognized_iff_similarity_strictly_above_witness :
    ((-1 : ℝ) ≤ 0.5) ∧
    (((∃ m, insightScan [1, 0] 0.5 [⟨"u1", "Alice", [1, 0]⟩] none (-1) =
        .ok (some m)) ↔
      ∃ e ∈ [GalleryEntry.mk "u1" "Alice" [1, 0]], cosineSim [1, 0] e.emb > 0.5) ∧
    ((check_face_exists [1, 0] 0.5
        [⟨"u1", "Alice", StoredEmbedding.valid [1, 0]⟩]).1 = true ↔
      ∃ u ∈ [DbUser.mk "u1" "Alice" (StoredEmbedding.valid [1, 0])],
        ∃ v, u.stored = StoredEmbedding.valid v ∧ cosineSim v [1, 0] > 0.5)) :=
  ⟨by norm_num,
    recognized_iff_similarity_strictly_above [1, 0] 0.5
      [⟨"u1", "Alice", [1, 0]⟩] [⟨"u1", "Alice", StoredEmbedding.valid [1, 0]⟩]
      (by norm_num)
      (by intro e he; simp only [List.mem_singleton] at he; subst he; rfl)
      (by
        intro u hu
        simp only [List.mem_singleton] at hu
        subst hu
        exact Or.inr ⟨[1, 0], rfl, rfl⟩)⟩

/-- C2 counterexample: in the reference configuration the duplicate-guard
threshold (0.6, registration.py line 70) is NOT less than or equal to the
recognition threshold (0.5, face_processor.py line 131). -/
theorem guard_threshold_not_le_recognition :
    ¬(registrationGuardThreshold ≤ realtimeInsightThreshold) := by
  norm_num [registrationGuardThreshold, realtimeInsightThreshold]

/-- C2 amended: the duplicate-guard threshold (0.6) is numerically GREATER
than the recognition threshold (0.5); consequently any probe flagged as a
duplicate (whose reported similarity therefore strictly exceeds 0.6) would
indeed also be recognized post-registration with the same embedding, because
its similarity also strictly exceeds 0.5. -/
theorem guard_threshold_above_recognition (emb : List ℝ) (users : List DbUser)
    (i : String × String × ℝ)
    (h : check_face_exists emb registrationGuardThreshold users =
      (true, some i)) :
    realtimeInsightThreshold < registrationGuardThreshold ∧
      i.2.2 > realtimeInsightThreshold := by
  constructor
  · norm_num [registrationGuardThreshold, realtimeInsightThreshold]
  · rcases check_duplicate_report emb registrationGuardThreshold users i h with
      ⟨u, _, v, _, hi, hgt⟩
    rw [hi]
    show cosineSim v emb > realtimeInsightThreshold
    rw [registrationGuardThreshold] at hgt
    rw [realtimeInsightThreshold]
    linarith

/-- C2 witness: a concrete duplicate report, and the conclusion at it. -/
theorem guard_threshold_above_recognition_witness :
    check_face_exists [1, 0] registrationGuardThreshold
        [⟨"u1", "Alice", StoredEmbedding.valid [1, 0]⟩] =
      (true, some ("u1", "Alice", cosineSim [1, 0] [1, 0])) ∧
    (realtimeInsightThreshold < registrationGuardThreshold ∧
      (("u1", "Alice", cosineSim [1, 0] [1, 0]) : String × String × ℝ).2.2 >
        realtimeInsightThreshold) := by
  have hchk : check_face_exists [1, 0] registrationGuardThreshold
      [⟨"u1", "Alice", StoredEmbedding.valid [1, 0]⟩] =
      (true, some ("u1", "Alice", cosineSim [1, 0] [1, 0])) :=
    check_cons_above [1, 0] registrationGuardThreshold
      ⟨"u1", "Alice", StoredEmbedding.valid [1, 0]⟩ [] [1, 0] rfl rfl
      (by rw [cosineSim_unit_self]; norm_num [registrationGuardThreshold])
  exact ⟨hchk, guard_threshold_above_recognition [1, 0] _ _ hchk⟩

/-- C5: when the probe or a gallery entry has zero norm, the similarity
comparison never clears a non-negative threshold (the junk value of the
division, like numpy's nan, compares false), so a zero-norm probe makes the
InsightFace scan return no match — with no exception — and makes the
duplicate guard report no duplicate. -/
theorem zero_norm_yields_no_match (a b emb : List ℝ) (th : ℝ)
    (gallery : List GalleryEntry) (users : List DbUser)
    (hth : (0 : ℝ) ≤ th)
    (hz : l2norm a = 0 ∨ l2norm b = 0)
    (hlen : ∀ e ∈ gallery, e.emb.length = emb.length)
    (husers : ∀ u ∈ users, u.stored = StoredEmbedding.missing ∨
      ∃ v, u.stored = StoredEmbedding.valid v ∧ v.length = emb.length)
    (hzemb : l2norm emb = 0) :
    ¬(cosineSim a b > th) ∧
    insightScan emb th gallery none (-1) = .ok none ∧
    (check_face_exists emb th users).1 = false := by
  refine ⟨?_, ?_, ?_⟩
  · rw [cosineSim_eq_zero_of_norm_zero a b hz]
    exact not_lt.mpr hth
  · have hnone : ∀ e ∈ gallery, ¬(cosineSim emb e.emb > th ∧
        cosineSim emb e.emb > (-1 : ℝ)) := by
      intro e _ hcontra
      rw [cosineSim_eq_zero_of_norm_zero emb e.emb (Or.inl hzemb)] at hcontra
      exact absurd hcontra.1 (not_lt.mpr hth)
    rw [insightScan_eq_scanState emb th gallery none (-1) hlen,
      scanState_no_update emb th gallery none (-1) hnone]
  · rcases Bool.eq_false_or_eq_true (check_face_exists emb th users).1 with h | h
    · rcases (check_true_iff emb th users husers).mp h with ⟨u, _, v, _, hgt⟩
      rw [cosineSim_eq_zero_of_norm_zero v emb (Or.inr hzemb)] at hgt
      exact absurd hgt (not_lt.mpr hth)
    · exact h

/-- C5 witness: the theorem applied at a concrete zero-norm probe. -/
theorem zero_norm_yields_no_match_witness :
    ((0 : ℝ) ≤ 0.5) ∧ l2norm [0, 0] = 0 ∧
    (¬(cosineSim [0, 0] [1] > 0.5) ∧
    insightScan [0, 0] 0.5 [⟨"u1", "Alice", [1, 0]⟩] none (-1) = .ok none ∧
    (check_face_exists [0, 0] 0.5
      [⟨"u1", "Alice", StoredEmbedding.valid [1, 0]⟩]).1 = false) := by
  have hz : l2norm [0, 0] = 0 := by norm_num [l2norm, dotL, Real.sqrt_zero]
  refine ⟨by norm_num, hz, ?_⟩
  exact zero_norm_yields_no_match [0, 0] [1] [0, 0] 0.5
    [⟨"u1", "Alice", [1, 0]⟩] [⟨"u1", "Alice", StoredEmbedding.valid [1, 0]⟩]
    (by norm_num) (Or.inl hz)
    (by intro e he; simp only [List.mem_singleton] at he; subst he; rfl)
    (by
      intro u hu
      simp only [List.mem_singleton] at hu
      subst hu
      exact Or.inr ⟨[1, 0], rfl, rfl⟩)
    hz

/-- C6: when the entry `e1` is the first gallery entry attaining the maximum
similarity (every earlier entry scores strictly less, every later entry at
most as much) and that maximum strictly exceeds the threshold, the scan
returns `e1` — the update condition `similarity > best_score` is strict, so a
later entry with the identical score never displaces the first one. -/
theorem tie_break_first_seen (emb : List ℝ) (th : ℝ)
    (g1 g2 : List GalleryEntry) (e1 : GalleryEntry)
    (hth : (-1 : ℝ) ≤ th)
    (hlen : ∀ e ∈ g1 ++ e1 :: g2, e.emb.length = emb.length)
    (hgt : cosineSim emb e1.emb > th)
    (hfirst : ∀ x ∈ g1, cosineSim emb x.emb < cosineSim emb e1.emb)
    (hmax : ∀ x ∈ g2, cosineSim emb x.emb ≤ cosineSim emb e1.emb) :
    insightScan emb th (g1 ++ e1 :: g2) none (-1) =
      .ok (some (e1.userId, e1.userData, cosineSim emb e1.emb)) := by
  rw [insightScan_eq_scanState _ _ _ _ _ hlen, scanState_append]
  have hbs : (scanState emb th g1 none (-1)).2 < cosineSim emb e1.emb := by
    rcases scanState_score_cases emb th g1 none (-1) with h | ⟨x, hx, hx2⟩
    · rw [h]; exact lt_of_le_of_lt hth hgt
    · rw [hx2]; exact hfirst x hx
  have hnone : ∀ x ∈ g2, ¬(cosineSim emb x.emb > th ∧
      cosineSim emb x.emb > cosineSim emb e1.emb) := by
    intro x hx hcontra
    exact absurd hcontra.2 (not_lt.mpr (hmax x hx))
  simp only [scanState]
  rw [if_pos ⟨hgt, hbs⟩, scanState_no_update emb th g2 _ _ hnone]

/-- C6 witness: two entries with the identical maximal score 1 above
threshold 0.5, in insertion order u1, u2: the match is u1. -/
theorem tie_break_first_seen_witness :
    cosineSim [1, 0] [1, 0] > 0.5 ∧
    insightScan [1, 0] 0.5
        [⟨"u1", "Alice", [1, 0]⟩, ⟨"u2", "Bob", [1, 0]⟩] none (-1) =
      .ok (some ("u1", "Alice", cosineSim [1, 0] [1, 0])) := by
  have hgt : cosineSim [1, 0] [1, 0] > 0.5 := by
    rw [cosineSim_unit_self]; norm_num
  refine ⟨hgt, ?_⟩
  exact tie_break_first_seen [1, 0] 0.5 [] [⟨"u2", "Bob", [1, 0]⟩]
    ⟨"u1", "Alice", [1, 0]⟩ (by norm_num)
    (by intro e he; fin_cases he <;> rfl)
    hgt
    (by intro x hx; simp at hx)
    (by intro x hx; simp only [List.mem_singleton] at hx; subst hx; exact le_refl _)

/-- C10: if every user before some document is skipped (no embedding field)
or scores at most the threshold, and that document has a corrupt blob or a
dimension-mismatched embedding, the exception raised inside the scan is
caught and `check_face_exists` returns `(False, None)` — reporting that no
duplicate exists and letting registration proceed — instead of propagating
the error. -/
theorem guard_error_returns_no_duplicate (emb : List ℝ) (th : ℝ)
    (us1 us2 : List DbUser) (u : DbUser)
    (h1 : ∀ x ∈ us1, x.stored = StoredEmbedding.missing ∨
      ∃ v, x.stored = StoredEmbedding.valid v ∧ v.length = emb.length ∧
        ¬(cosineSim v emb > th))
    (hu : u.stored = StoredEmbedding.corrupt ∨
      ∃ v, u.stored = StoredEmbedding.valid v ∧ v.length ≠ emb.length) :
    check_face_exists emb th (us1 ++ u :: us2) = (false, none) := by
  induction us1 with
  | nil => simpa using check_cons_error emb th u us2 hu
  | cons x rest ih =>
    rcases h1 x (by simp) with hm | ⟨v, hv, hvlen, hsim⟩
    · rw [List.cons_append, check_cons_missing emb th x _ hm]
      exact ih fun y hy => h1 y (List.mem_cons_of_mem _ hy)
    · rw [List.cons_append, check_cons_below emb th x _ v hv hvlen hsim]
      exact ih fun y hy => h1 y (List.mem_cons_of_mem _ hy)

/-- C10 witness: a user table whose first document has a corrupt embedding
blob: the guard reports no duplicate. -/
theorem guard_error_returns_no_duplicate_witness :
    (DbUser.mk "u1" "Alice" StoredEmbedding.corrupt).stored =
      StoredEmbedding.corrupt ∧
    check_face_exists [1, 0] 0.5
      ([] ++ DbUser.mk "u1" "Alice" StoredEmbedding.corrupt :: []) =
      (false, none) :=
  ⟨rfl,
    guard_error_returns_no_duplicate [1, 0] 0.5 [] []
      ⟨"u1", "Alice", StoredEmbedding.corrupt⟩
      (by intro x hx; simp at hx)
      (Or.inl rfl)⟩

/-- Evaluation helper: a singleton InsightFace scan whose entry clears the
threshold and the `-1` initializer returns that entry. -/
theorem insightScan_singleton_gt (emb : List ℝ) (th : ℝ) (e : GalleryEntry)
    (hlen : e.emb.length = emb.length) (hgt : cosineSim emb e.emb > th)
    (hm1 : cosineSim emb e.emb > (-1 : ℝ)) :
    insightScan emb th [e] none (-1) =
      .ok (some (e.userId, e.userData, cosineSim emb e.emb)) := by
  rw [insightScan_eq_scanState emb th [e] none (-1)
    (by intro x hx; simp only [List.mem_singleton] at hx; subst hx; exact hlen)]
  simp only [scanState]
  rw [if_pos ⟨hgt, hm1⟩]

/-- Evaluation helper: the fallback scan skips a dimension-mismatched head. -/
theorem opencvScan_cons_mismatch (emb : List ℝ) (th : ℝ) (e : GalleryEntry)
    (rest : List GalleryEntry) (b : Option (String × String × ℝ)) (bs : ℝ)
    (h : ¬(emb.length = e.emb.length)) :
    opencvScan emb th (e :: rest) b bs = opencvScan emb th rest b bs := by
  simp only [opencvScan, if_neg h]

/-- Evaluation helper: a singleton fallback scan whose entry clears the
threshold and the `-1` initializer returns that entry. -/
theorem opencvScan_singleton_gt (emb : List ℝ) (th : ℝ) (e : GalleryEntry)
    (hlen : emb.length = e.emb.length)
    (hgt : opencvSimilarity emb e.emb > th)
    (hm1 : opencvSimilarity emb e.emb > (-1 : ℝ)) :
    opencvScan emb th [e] none (-1) =
      some (e.userId, e.userData, opencvSimilarity emb e.emb) := by
  simp only [opencvScan, if_pos hlen]
  rw [if_pos ⟨hgt, hm1⟩]

/-- C3 counterexample: the InsightFace matcher has no dimension guard, so a
gallery entry whose embedding dimension differs from the probe's makes
`np.dot` raise and the whole scan fail, rather than being skipped. -/
theorem insight_mismatch_raises :
    insightScan [1, 0] 0.5 [⟨"u1", "Alice", [1]⟩] none (-1) = .error () := by
  simp [insightScan, npDot]

/-- C3 amended: only the fallback (OpenCV) matcher skips dimension-mismatched
gallery entries — its scan is unchanged when they are removed, any selected
best match is a dimension-compatible entry, and the scan is total, so it
never fails; the InsightFace matcher has no dimension guard and a mismatched
entry raises instead (see the counterexample). -/
theorem opencv_mismatch_skipped (emb : List ℝ) (th : ℝ)
    (g : List GalleryEntry) (b : Option (String × String × ℝ)) (bs : ℝ) :
    opencvScan emb th g b bs =
      opencvScan emb th (g.filter fun e => decide (emb.length = e.emb.length)) b bs ∧
    ∀ m, opencvScan emb th g none (-1) = some m →
      ∃ e ∈ g, emb.length = e.emb.length ∧
        m = (e.userId, e.userData, opencvSimilarity emb e.emb) := by
  constructor
  · induction g generalizing b bs with
    | nil => simp [opencvScan]
    | cons e rest ih =>
      by_cases h : emb.length = e.emb.length
      · rw [List.filter_cons_of_pos (by simpa using h)]
        simp only [opencvScan, if_pos h]
        split
        · exact ih _ _
        · exact ih _ _
      · rw [List.filter_cons_of_neg (by simpa using h)]
        simp only [opencvScan, if_neg h]
        exact ih _ _
  · intro m hm
    rcases opencvScan_match_cases emb th g none (-1) with h | ⟨e, he, h1, h2, _⟩
    · rw [h] at hm; cases hm
    · rw [h2] at hm
      exact ⟨e, he, h1, (Option.some.inj hm).symm⟩

/-- C3 witness: a gallery holding a mismatched entry followed by a matching
one; the fallback scan returns the matching entry, and the theorem locates
it among the compatible entries. -/
theorem opencv_mismatch_skipped_witness :
    opencvScan [1, 0] 0.8 [⟨"u0", "Zed", [9]⟩, ⟨"u2", "Bob", [1, 0]⟩]
        none (-1) =
      some ("u2", "Bob", opencvSimilarity [1, 0] [1, 0]) ∧
    ∃ e ∈ [GalleryEntry.mk "u0" "Zed" [9], GalleryEntry.mk "u2" "Bob" [1, 0]],
      ([1, 0] : List ℝ).length = e.emb.length ∧
      (("u2", "Bob", opencvSimilarity [1, 0] [1, 0]) : String × String × ℝ) =
        (e.userId, e.userData, opencvSimilarity [1, 0] e.emb) := by
  have hsim : opencvSimilarity [1, 0] [1, 0] = 1 := by
    norm_num [opencvSimilarity, l2norm, dotL, Real.sqrt_zero]
  have hscan : opencvScan [1, 0] 0.8
      [⟨"u0", "Zed", [9]⟩, ⟨"u2", "Bob", [1, 0]⟩] none (-1) =
      some ("u2", "Bob", opencvSimilarity [1, 0] [1, 0]) := by
    rw [opencvScan_cons_mismatch [1, 0] 0.8 ⟨"u0", "Zed", [9]⟩ _ none (-1)
      (by simp)]
    exact opencvScan_singleton_gt [1, 0] 0.8 ⟨"u2", "Bob", [1, 0]⟩ (by simp)
      (by rw [hsim]; norm_num) (by rw [hsim]; norm_num)
  exact ⟨hscan, (opencv_mismatch_skipped [1, 0] 0.8 _ none (-1)).2 _ hscan⟩

/-- C4 counterexample: the fallback backend's similarity is not the cosine
similarity: at probe `[2, 0]` and entry `[1, 0]` the cosine is 1 but the
fallback computes 1/(1 + distance) = 1/2. -/
theorem fallback_similarity_not_cosine :
    opencvSimilarity [2, 0] [1, 0] ≠ cosineSim [2, 0] [1, 0] := by
  have h4 : Real.sqrt 4 = 2 := by
    rw [show (4 : ℝ) = 2 ^ 2 by norm_num, Real.sqrt_sq (by norm_num : (0 : ℝ) ≤ 2)]
  have h1 : opencvSimilarity [2, 0] [1, 0] = 1 / 2 := by
    norm_num [opencvSimilarity, l2norm, dotL, Real.sqrt_one]
  have h2 : cosineSim [2, 0] [1, 0] = 1 := by
    norm_num [cosineSim, l2norm, dotL, Real.sqrt_one, h4]
  rw [h1, h2]
  norm_num

/-- C4 amended: the similarity attached to every reported match is the cosine
similarity `dot(a,b)/(‖a‖·‖b‖)` in the InsightFace matcher and in the
duplicate guard, but the OpenCV fallback matcher attaches the
inverse-distance score `1/(1 + ‖a-b‖)` instead. -/
theorem similarity_per_backend (emb : List ℝ) (th : ℝ)
    (gallery : List GalleryEntry) (users : List DbUser)
    (m i mcv : String × String × ℝ)
    (hlen : ∀ e ∈ gallery, e.emb.length = emb.length)
    (hm : insightScan emb th gallery none (-1) = .ok (some m))
    (hi : check_face_exists emb th users = (true, some i))
    (hcv : opencvScan emb th gallery none (-1) = some mcv) :
    (∃ e ∈ gallery, m = (e.userId, e.userData, cosineSim emb e.emb)) ∧
    (∃ u ∈ users, ∃ v, u.stored = StoredEmbedding.valid v ∧
      i = (u.uid, u.name, cosineSim v emb)) ∧
    (∃ e ∈ gallery, mcv = (e.userId, e.userData, opencvSimilarity emb e.emb)) := by
  refine ⟨?_, ?_, ?_⟩
  · rcases insight_match_report emb th gallery m hlen hm with ⟨e, he, h1, _⟩
    exact ⟨e, he, h1⟩
  · rcases check_duplicate_report emb th users i hi with ⟨u, hu, v, hv, h1, _⟩
    exact ⟨u, hu, v, hv, h1⟩
  · rcases opencvScan_match_cases emb th gallery none (-1) with h | ⟨e, he, _, h2, _⟩
    · rw [h] at hcv; cases hcv
    · rw [h2] at hcv
      exact ⟨e, he, (Option.some.inj hcv).symm⟩

/-- C4 witness: the theorem applied at a concrete probe, gallery and user
table on which all three matchers report a match. -/
theorem similarity_per_backend_witness :
    insightScan [1, 0] 0.5 [⟨"u1", "Alice", [1, 0]⟩] none (-1) =
      .ok (some ("u1", "Alice", cosineSim [1, 0] [1, 0])) ∧
    ((∃ e ∈ [GalleryEntry.mk "u1" "Alice" [1, 0]],
      (("u1", "Alice", cosineSim [1, 0] [1, 0]) : String × String × ℝ) =
        (e.userId, e.userData, cosineSim [1, 0] e.emb)) ∧
    (∃ u ∈ [DbUser.mk "u1" "Alice" (StoredEmbedding.valid [1, 0])],
      ∃ v, u.stored = StoredEmbedding.valid v ∧
      (("u1", "Alice", cosineSim [1, 0] [1, 0]) : String × String × ℝ) =
        (u.uid, u.name, cosineSim v [1, 0])) ∧
    (∃ e ∈ [GalleryEntry.mk "u1" "Alice" [1, 0]],
      (("u1", "Alice", opencvSimilarity [1, 0] [1, 0]) : String × String × ℝ) =
        (e.userId, e.userData, opencvSimilarity [1, 0] e.emb))) := by
  have hgt : cosineSim [1, 0] [1, 0] > 0.5 := by
    rw [cosineSim_unit_self]; norm_num
  have hosim : opencvSimilarity [1, 0] [1, 0] = 1 := by
    norm_num [opencvSimilarity, l2norm, dotL, Real.sqrt_zero]
  have hm : insightScan [1, 0] 0.5 [⟨"u1", "Alice", [1, 0]⟩] none (-1) =
      .ok (some ("u1", "Alice", cosineSim [1, 0] [1, 0])) :=
    insightScan_singleton_gt [1, 0] 0.5 ⟨"u1", "Alice", [1, 0]⟩ rfl hgt
      (by rw [cosineSim_unit_self]; norm_num)
  have hi : check_face_exists [1, 0] 0.5
      [⟨"u1", "Alice", StoredEmbedding.valid [1, 0]⟩] =
      (true, some ("u1", "Alice", cosineSim [1, 0] [1, 0])) :=
    check_cons_above [1, 0] 0.5 ⟨"u1", "Alice", StoredEmbedding.valid [1, 0]⟩
      [] [1, 0] rfl rfl hgt
  have hcv : opencvScan [1, 0] 0.5 [⟨"u1", "Alice", [1, 0]⟩] none (-1) =
      some ("u1", "Alice", opencvSimilarity [1, 0] [1, 0]) :=
    opencvScan_singleton_gt [1, 0] 0.5 ⟨"u1", "Alice", [1, 0]⟩ rfl
      (by rw [hosim]; norm_num) (by rw [hosim]; norm_num)
  exact ⟨hm, similarity_per_backend [1, 0] 0.5 _ _ _ _ _
    (by intro e he; simp only [List.mem_singleton] at he; subst he; rfl)
    hm hi hcv⟩

/-! ## Lemmas about the stable descending sort used by the extractor -/

/-- Unfolding of `pySortedDesc` on a cons cell. -/
theorem pySortedDesc_cons {α β : Type} [LinearOrder β] (key : α → β) (a : α)
    (l : List α) :
    pySortedDesc key (a :: l) = pyInsertDesc key a (pySortedDesc key l) := rfl

/-- Membership through `pyInsertDesc`. -/
theorem mem_pyInsertDesc {α β : Type} [LinearOrder β] (key : α → β) (x y : α)
    (l : List α) : y ∈ pyInsertDesc key x l ↔ y = x ∨ y ∈ l := by
  induction l with
  | nil => simp [pyInsertDesc]
  | cons a rest ih =>
    simp only [pyInsertDesc]
    split
    · simp only [List.mem_cons]
    · simp only [List.mem_cons, ih]
      tauto

/-- The sort permutes no elements in or out. -/
theorem mem_pySortedDesc {α β : Type} [LinearOrder β] (key : α → β) (y : α)
    (l : List α) : y ∈ pySortedDesc key l ↔ y ∈ l := by
  induction l with
  | nil => simp [pySortedDesc]
  | cons a rest ih =>
    rw [pySortedDesc_cons, mem_pyInsertDesc]
    simp only [List.mem_cons, ih]

/-- Inserting an element whose key dominates every element of the list puts
it in front. -/
theorem pyInsertDesc_all_le {α β : Type} [LinearOrder β] (key : α → β) (x : α)
    (l : List α) (h : ∀ y ∈ l, key y ≤ key x) :
    pyInsertDesc key x l = x :: l := by
  cases l with
  | nil => rfl
  | cons a rest =>
    simp only [pyInsertDesc]
    rw [if_pos (h a (by simp))]

/-- Stability and correctness of the descending sort in the only form the
extractor observes: when `f` is the first element attaining the maximal key
(strictly larger than every earlier key, at least every later key), `f` is
the head of the sorted list. -/
theorem pySortedDesc_first_max {α β : Type} [LinearOrder β] (key : α → β)
    (l1 : List α) (f : α) (l2 : List α)
    (h1 : ∀ x ∈ l1, key x < key f) (h2 : ∀ x ∈ l2, key x ≤ key f) :
    ∃ t, pySortedDesc key (l1 ++ f :: l2) = f :: t := by
  induction l1 with
  | nil =>
    rw [List.nil_append, pySortedDesc_cons]
    exact ⟨pySortedDesc key l2,
      pyInsertDesc_all_le key f _ fun y hy =>
        h2 y ((mem_pySortedDesc key y l2).mp hy)⟩
  | cons a rest ih =>
    rcases ih (fun x hx => h1 x (List.mem_cons_of_mem _ hx)) with ⟨t, ht⟩
    rw [List.cons_append, pySortedDesc_cons, ht]
    simp only [pyInsertDesc]
    rw [if_neg (not_le.mpr (h1 a (by simp)))]
    exact ⟨_, rfl⟩

/-- The extractor's selection — sort descending when more than one face, then
take the first — returns the first face of maximal key. -/
theorem selectLargest_eq {α β : Type} [Inhabited α] [LinearOrder β]
    (key : α → β) (l1 : List α) (f : α) (l2 : List α)
    (h1 : ∀ x ∈ l1, key x < key f) (h2 : ∀ x ∈ l2, key x ≤ key f) :
    (if (l1 ++ f :: l2).length > 1 then pySortedDesc key (l1 ++ f :: l2)
     else l1 ++ f :: l2).headI = f := by
  by_cases hlen : (l1 ++ f :: l2).length > 1
  · rw [if_pos hlen]
    rcases pySortedDesc_first_max key l1 f l2 h1 h2 with ⟨t, ht⟩
    rw [ht]
    rfl
  · rw [if_neg hlen]
    cases l1 with
    | cons a r =>
      exfalso
      apply hlen
      simp only [List.length_append, List.length_cons]
      omega
    | nil =>
      cases l2 with
      | cons b r =>
        exfalso
        apply hlen
        simp only [List.nil_append, List.length_cons]
        omega
      | nil => rfl

/-- C7: in both extractor branches, the single-face extraction (registration
path) selects the detection of largest bounding-box area, the first-detected
one when areas tie: if `f` (resp. `g`) is the first detection attaining the
maximal area, it is the face whose embedding and crop are returned. -/
theorem extractor_selects_largest_face
    (faceAppGet : Image → List InsightFace)
    (cascadeDetect : Image → List CVFace)
    (resizeFlatten : Image → List ℕ) (image : Image)
    (f : InsightFace) (l1 l2 : List InsightFace)
    (g : CVFace) (k1 k2 : List CVFace)
    (hI : faceAppGet image = l1 ++ f :: l2)
    (h1 : ∀ x ∈ l1, insightFaceArea x < insightFaceArea f)
    (h2 : ∀ x ∈ l2, insightFaceArea x ≤ insightFaceArea f)
    (hC : cascadeDetect image = k1 ++ g :: k2)
    (hk1 : ∀ x ∈ k1, cvFaceArea x < cvFaceArea g)
    (hk2 : ∀ x ∈ k2, cvFaceArea x ≤ cvFaceArea g) :
    get_face_embedding true faceAppGet cascadeDetect resizeFlatten image =
      (some f.embedding,
        some (cropImg image (max 0 ⌊f.y1⌋) ⌊f.y2⌋ (max 0 ⌊f.x1⌋) ⌊f.x2⌋),
        true, "Face detected successfully") ∧
    get_face_embedding false faceAppGet cascadeDetect resizeFlatten image =
      (some ((resizeFlatten (cropImg image g.y (g.y + g.h) g.x (g.x + g.w))).map
          fun v => (v : ℝ) / 255),
        some (cropImg image g.y (g.y + g.h) g.x (g.x + g.w)),
        true, "Face detected (using OpenCV fallback)") := by
  constructor
  · have hhead := selectLargest_eq insightFaceArea l1 f l2 h1 h2
    simp only [get_face_embedding, hI, if_true]
    rw [if_neg (by simp [List.length_append])]
    rw [hhead]
  · have hhead := selectLargest_eq cvFaceArea k1 g k2 hk1 hk2
    simp only [get_face_embedding, hC, Bool.false_eq_true, if_false]
    rw [if_neg (by simp [List.length_append])]
    rw [hhead]

/-- C7 witness: two faces with the identical maximal area; the first-detected
one is selected in each branch. -/
theorem extractor_selects_largest_face_witness :
    insightFaceArea (InsightFace.mk 0 0 2 2 [7]) ≤
      insightFaceArea (InsightFace.mk 0 0 2 2 [5]) ∧
    (get_face_embedding true
        (fun _ => [InsightFace.mk 0 0 2 2 [5], InsightFace.mk 0 0 2 2 [7]])
        (fun _ => [CVFace.mk 0 0 2 2, CVFace.mk 0 0 2 2])
        (fun _ => []) (fun _ => (0, 0, 0))).1 = some [5] := by
  have h2 : ∀ x ∈ [InsightFace.mk 0 0 2 2 [7]],
      insightFaceArea x ≤ insightFaceArea (InsightFace.mk 0 0 2 2 [5]) := by
    intro x hx
    simp only [List.mem_singleton] at hx
    subst hx
    norm_num [insightFaceArea]
  refine ⟨h2 _ (by simp), ?_⟩
  rw [(extractor_selects_largest_face
    (fun _ => [InsightFace.mk 0 0 2 2 [5], InsightFace.mk 0 0 2 2 [7]])
    (fun _ => [CVFace.mk 0 0 2 2, CVFace.mk 0 0 2 2])
    (fun _ => []) (fun _ => (0, 0, 0))
    (InsightFace.mk 0 0 2 2 [5]) [] [InsightFace.mk 0 0 2 2 [7]]
    (CVFace.mk 0 0 2 2) [] [CVFace.mk 0 0 2 2]
    rfl (by intro x hx; simp at hx) h2
    rfl (by intro x hx; simp at hx)
    (by
      intro x hx
      simp only [List.mem_singleton] at hx
      subst hx
      norm_num [cvFaceArea])).1]

/-! ## Frame-effect lemmas for the recognition engine -/

/-- The InsightFace per-face loop only ever writes to the display buffer. -/
theorem insightFaceLoop_preserves (gallery : List GalleryEntry) (image : Image)
    (dispRef : ImgRef) (faces : List InsightFace) (st : Store)
    (ms : List FaceData) (r : ℕ) (hr : r ≠ dispRef) :
    ((insightFaceLoop gallery image dispRef faces st ms).1)[r]? = st[r]? := by
  induction faces generalizing st ms with
  | nil => rfl
  | cons face rest ih =>
    simp only [insightFaceLoop]
    split
    · rfl
    · rw [ih]
      exact List.getElem?_set_ne fun h => hr h.symm

/-- The fallback per-face loop only ever writes to the display buffer. -/
theorem opencvFaceLoop_preserves (gallery : List GalleryEntry) (image : Image)
    (dispRef : ImgRef) (resizeFlatten : Image → List ℕ) (faces : List CVFace)
    (st : Store) (ms : List FaceData) (r : ℕ) (hr : r ≠ dispRef) :
    ((opencvFaceLoop gallery image dispRef resizeFlatten faces st ms).1)[r]? =
      st[r]? := by
  induction faces generalizing st ms with
  | nil => rfl
  | cons f rest ih =>
    simp only [opencvFaceLoop]
    rw [ih]
    exact List.getElem?_set_ne fun h => hr h.symm

/-- C8: in either backend mode the recognition operation draws its marker
rectangles — green for recognized, red for unrecognized, two distinct
colours — only on the freshly allocated copy of the input frame: every
caller-owned buffer is unchanged after the call, and the returned annotated
frame is the fresh buffer, not any caller-owned one. -/
theorem realtime_preserves_caller_frame (useInsightface : Bool)
    (faceAppGet : Image → List InsightFace)
    (cascadeDetect : Image → List CVFace)
    (resizeFlatten : Image → List ℕ)
    (gallery : List GalleryEntry) (st : Store) (imgRef : ImgRef) (r : ℕ)
    (hr : r < st.length) :
    ((detect_face_realtime useInsightface faceAppGet cascadeDetect
        resizeFlatten gallery st imgRef).1)[r]? = st[r]? ∧
    (detect_face_realtime useInsightface faceAppGet cascadeDetect
        resizeFlatten gallery st imgRef).2.1 = st.length ∧
    colorGreen ≠ colorRed := by
  have hne : r ≠ st.length := Nat.ne_of_lt hr
  refine ⟨?_, ?_, by decide⟩
  · cases useInsightface with
    | false =>
      simp only [detect_face_realtime, Bool.false_eq_true, if_false]
      rw [opencvFaceLoop_preserves _ _ _ _ _ _ _ _ hne]
      exact List.getElem?_append_left hr
    | true =>
      simp only [detect_face_realtime, if_true]
      rw [insightFaceLoop_preserves _ _ _ _ _ _ _ hne]
      exact List.getElem?_append_left hr
  · cases useInsightface with
    | false => rfl
    | true => rfl

/-- C8 witness: a one-buffer store; the caller's frame is untouched and the
returned reference is the fresh buffer. -/
theorem realtime_preserves_caller_frame_witness :
    (0 < ([fun _ => (1, 2, 3)] : Store).length) ∧
    (((detect_face_realtime true (fun _ => []) (fun _ => [])
        (fun _ => []) [] [fun _ => (1, 2, 3)] 0).1)[0]? =
      ([fun _ => (1, 2, 3)] : Store)[0]? ∧
    (detect_face_realtime true (fun _ => []) (fun _ => [])
        (fun _ => []) [] [fun _ => (1, 2, 3)] 0).2.1 =
      ([fun _ => (1, 2, 3)] : Store).length ∧
    colorGreen ≠ colorRed) :=
  ⟨by decide,
    realtime_preserves_caller_frame true (fun _ => []) (fun _ => [])
      (fun _ => []) [] [fun _ => (1, 2, 3)] 0 0 (by decide)⟩

/-- C9: an image in which zero faces are detected makes the single-face
extractor return the explicit no-face outcome (in either branch), and makes
the recognition operation return an empty outcome list together with the
store extended by an unannotated copy of the input frame, the returned
reference naming that copy — no exception in either case. -/
theorem no_face_detected_outcomes
    (faceAppGet : Image → List InsightFace)
    (cascadeDetect : Image → List CVFace)
    (resizeFlatten : Image → List ℕ)
    (gallery : List GalleryEntry) (st : Store) (imgRef : ImgRef)
    (image : Image)
    (hI : faceAppGet image = [])
    (hC : cascadeDetect image = [])
    (hIf : faceAppGet (st.getD imgRef default) = [])
    (hCf : cascadeDetect (st.getD imgRef default) = []) :
    get_face_embedding true faceAppGet cascadeDetect resizeFlatten image =
      (none, none, false, "No face detected in the image") ∧
    get_face_embedding false faceAppGet cascadeDetect resizeFlatten image =
      (none, none, false, "No face detected in the image") ∧
    detect_face_realtime true faceAppGet cascadeDetect resizeFlatten gallery
        st imgRef = (st ++ [st.getD imgRef default], st.length, .ok []) ∧
    detect_face_realtime false faceAppGet cascadeDetect resizeFlatten gallery
        st imgRef = (st ++ [st.getD imgRef default], st.length, .ok []) := by
  simp only [List.getD, List.get?_eq_getElem?] at hIf hCf
  refine ⟨?_, ?_, ?_, ?_⟩
  · simp [get_face_embedding, hI]
  · simp [get_face_embedding, hC]
  · simp [detect_face_realtime, hIf, insightFaceLoop]
  · simp [detect_face_realtime, hCf, opencvFaceLoop]

/-- C9 witness: constant empty detectors on a one-buffer store. -/
theorem no_face_detected_outcomes_witness :
    get_face_embedding true (fun _ => []) (fun _ => []) (fun _ => [])
        (fun _ => (1, 2, 3)) =
      (none, none, false, "No face detected in the image") ∧
    detect_face_realtime true (fun _ => []) (fun _ => []) (fun _ => [])
        [] [fun _ => (1, 2, 3)] 0 =
      (([fun _ => (1, 2, 3)] : Store) ++
        [([fun _ => (1, 2, 3)] : Store).getD 0 default], 1, .ok []) := by
  have h := no_face_detected_outcomes (fun _ => []) (fun _ => [])
    (fun _ => []) [] [fun _ => (1, 2, 3)] 0 (fun _ => (1, 2, 3))
    rfl rfl rfl rfl
  exact ⟨h.1, h.2.2.1⟩

end FacialRec
